import Mathlib

/-!
Shallow embedding of `setup.py` from python-gssapi: the platform-adaptive
build-configuration resolver for the native extension modules.

Python string operations are modelled character-wise on `String.data` so
that every definition reduces inside the kernel: `pyStartsWith` is
`str.startswith`, `pyDrop` is slicing `s[n:]`, `pySplitComma` is
`s.split(',')`, `dotsToSlashes` is `s.replace('.', '/')` and `pyLower` is
`s.lower()` (only ASCII appears in the modelled values).
-/

/-- Python `s.startswith(p)`. -/
def pyStartsWith (s p : String) : Bool := p.data.isPrefixOf s.data

/-- Python slicing `s[n:]`. -/
def pyDrop (s : String) (n : Nat) : String := String.mk (s.data.drop n)

/-- Helper for `pySplitComma`, accumulating the current field reversed. -/
def splitCommaAux : List Char → List Char → List String
  | [], acc => [String.mk acc.reverse]
  | c :: cs, acc =>
    if c = ',' then String.mk acc.reverse :: splitCommaAux cs []
    else splitCommaAux cs (c :: acc)

/-- Python `s.split(',')` (explicit separator: `''.split(',') == ['']`). -/
def pySplitComma (s : String) : List String := splitCommaAux s.data []

/-- Python `s.replace('.', '/')` (single-character pattern, so charwise). -/
def dotsToSlashes (s : String) : String :=
  String.mk (s.data.map (fun c => if c = '.' then '/' else c))

/-- Python `s.lower()` on the ASCII values appearing here. -/
def pyLower (s : String) : String := String.mk (s.data.map Char.toLower)

/-!
## Linker-token partition (`Config.__init__`, setup.py lines 53-60)

```python
self.library_dirs, self.libraries, self.link_args = [], [], []
for arg in link_args:
    if arg.startswith('-L'):
        self.library_dirs.append(arg[2:])
    elif arg.startswith('-l'):
        self.libraries.append(arg[2:])
    else:
        self.link_args.append(arg)
```
-/

/-- The three destination lists built by the loop in `Config.__init__`. -/
structure LinkPartition where
  library_dirs : List String
  libraries : List String
  link_args : List String
deriving DecidableEq

/-- One iteration of the `for arg in link_args` loop. -/
def partStep (st : LinkPartition) (arg : String) : LinkPartition :=
  if pyStartsWith arg "-L" then
    { st with library_dirs := st.library_dirs ++ [pyDrop arg 2] }
  else if pyStartsWith arg "-l" then
    { st with libraries := st.libraries ++ [pyDrop arg 2] }
  else
    { st with link_args := st.link_args ++ [arg] }

/-- The whole loop of `Config.__init__` lines 53-60. -/
def partitionLinkArgs (args : List String) : LinkPartition :=
  args.foldl partStep ⟨[], [], []⟩

/-!
## Platform selection (setup.py lines 226-234)

```python
if os.name == 'nt':
    config = WindowsConfig()
elif (sys.platform == 'darwin'
        and [int(v) for v in platform.mac_ver()[0].split('.')] >= [10, 7, 0]):
    config = DarwinGSSFrameWorkConfig()
elif sys.platform == 'msys':
    config = MSYSConfig()
else:
    config = Config()
```

`mac_ver` is taken already parsed, as the list of integer components produced
by `[int(v) for v in platform.mac_ver()[0].split('.')]`.
-/

/-- The four `Config` classes the chain can instantiate. -/
inductive PlatformVariant where
  | windows
  | darwin
  | msys
  | posixDefault
deriving DecidableEq

/-- Python `>=` on lists of integers: lexicographic, and a strict prefix of
the other list compares smaller. -/
def pyListGe : List Nat → List Nat → Bool
  | [], [] => true
  | [], _ :: _ => false
  | _ :: _, [] => true
  | x :: xs, y :: ys =>
    if x > y then true
    else if x < y then false
    else pyListGe xs ys

/-- The `if/elif/elif/else` chain choosing `config` (setup.py lines 226-234). -/
def selectConfig (os_name sys_platform : String) (mac_ver : List Nat) :
    PlatformVariant :=
  if os_name = "nt" then .windows
  else if sys_platform = "darwin" ∧ pyListGe mac_ver [10, 7, 0] = true then .darwin
  else if sys_platform = "msys" then .msys
  else .posixDefault

/-!
## Source-format decision (setup.py lines 20-32)
-/

/-- `SOURCE_EXT` as an enum: `pyx` (Primary) versus `c` (Fallback). -/
inductive SourceFormat where
  | primary
  | fallback
deriving DecidableEq

/-- setup.py lines 20-32: sentinel file (`__dont_use_cython__.txt`) present
forces `c`; otherwise the Cython import decides `pyx` versus `c`. -/
def selectSourceFormat (sentinelPresent cythonAvailable : Bool) : SourceFormat :=
  if sentinelPresent then .fallback
  else if cythonAvailable then .primary
  else .fallback

/-- The file extension each choice binds (`SOURCE_EXT`). -/
def SourceFormat.sourceExt : SourceFormat → String
  | .primary => "pyx"
  | .fallback => "c"

/-!
## Capability-detection gate (setup.py lines 72-89)
-/

/-- setup.py lines 72-73:
`os.environ.get('GSSAPI_SUPPORT_DETECT', 'true').lower() == 'true'`. -/
def parseSupportDetect (v : Option String) : Bool :=
  pyLower (v.getD "true") == "true"

/-- setup.py lines 75-89.  The loaded library (`ctypes.CDLL`) is modelled as
a symbol-presence oracle `String → Bool`; `load` models `ctypes.CDLL` on the
resolved path.  `mainLibEnv` is `GSSAPI_MAIN_LIB`, `variantLibPath` the
variant's `_gssapi_lib_path`. -/
def initProbeHandle (supportEnv mainLibEnv variantLibPath : Option String)
    (load : String → (String → Bool)) : Except String (Option (String → Bool)) :=
  if parseSupportDetect supportEnv then
    match (match mainLibEnv with | some l => some l | none => variantLibPath) with
    | none =>
      Except.error ("Could not find main GSSAPI shared library. Please " ++
        "try setting GSSAPI_MAIN_LIB yourself or " ++
        "setting ENABLE_SUPPORT_DETECTION to 'false'")
    | some l => Except.ok (some (load l))
  else Except.ok none

/-!
## MSYS main-library discovery (setup.py lines 215-222, no MINGW_PREFIX)

```python
main_lib = '/mingw%d/bin/libgss-3.dll' % ARCH
if os.path.exists(main_lib):
    os.environ['PATH'] += os.pathsep + os.path.dirname(main_lib)
    return main_lib
```
-/

/-- `os.path.dirname('/mingw%d/bin/libgss-3.dll' % ARCH)`. -/
def msysLibDir (arch : Nat) : String := "/mingw" ++ toString arch ++ "/bin"

/-- `'/mingw%d/bin/libgss-3.dll' % ARCH`. -/
def msysMainLib (arch : Nat) : String := msysLibDir arch ++ "/libgss-3.dll"

/-- `MSYSConfig._gssapi_lib_path` when no `MINGW_PREFIX` environment variable
is set: probe the numbered system directory; if the file exists, extend the
`PATH` environment variable with its directory and return the path, else
return `None`.  `fs` models `os.path.exists`; result is
(returned value, PATH after the call). -/
def msysGssapiLibPath (arch : Nat) (fs : String → Bool) (pathsep path : String) :
    Option String × String :=
  if fs (msysMainLib arch) then
    (some (msysMainLib arch), path ++ pathsep ++ msysLibDir arch)
  else
    (none, path)

/-!
## Extensions and module assembly (setup.py lines 122-135, 288-328, 369-398)
-/

/-- The fields `setup.py` passes to `setuptools.Extension`. -/
structure Extension where
  name : String
  extra_link_args : List String
  extra_compile_args : List String
  library_dirs : List String
  libraries : List String
  sources : List String
  include_dirs : List String
deriving DecidableEq

/-- The parts of a constructed `Config` instance that module assembly reads.
`gssapi_lib` is the `ctypes.CDLL` handle modelled as a symbol-presence
oracle (what `hasattr` would answer); it is `none` when the handle is the
Python value `None`. -/
structure Config where
  library_dirs : List String
  libraries : List String
  link_args : List String
  compile_args : List String
  enable_support_detect : Bool
  gssapi_lib : Option (String → Bool)

/-- `hasattr(lib, canary)`: `None` has no GSSAPI symbol attribute. -/
def hasSymbol : Option (String → Bool) → String → Bool
  | some probe, s => probe s
  | none, _ => false

/-- A `name_fmt` string with a single `%s` hole: `pre ++ hole ++ post`. -/
structure NameFmt where
  pre : String
  post : String

/-- `name_fmt % module`. -/
def NameFmt.fmt (f : NameFmt) (m : String) : String := f.pre ++ m ++ f.post

/-- `name_fmt.replace('.', '/') % module + '.' + SOURCE_EXT`
(`Config.make_extension`, line 124). -/
def NameFmt.srcPath (f : NameFmt) (m ext : String) : String :=
  dotsToSlashes f.pre ++ m ++ dotsToSlashes f.post ++ "." ++ ext

/-- `'gssapi.raw.%s'` (`main_file`). -/
def mainFmt : NameFmt := ⟨"gssapi.raw.", ""⟩

/-- `'gssapi.raw.ext_%s'` (`extension_file`, primary module). -/
def extFmt : NameFmt := ⟨"gssapi.raw.ext_", ""⟩

/-- `'gssapi.raw._enum_extensions.ext_%s'` (`extension_file`, companion). -/
def enumFmt : NameFmt := ⟨"gssapi.raw._enum_extensions.ext_", ""⟩

/-- `'gssapi.raw.mech_%s'` (`gssapi_modules`). -/
def mechFmt : NameFmt := ⟨"gssapi.raw.mech_", ""⟩

/-- The `Extension` object `Config.make_extension` constructs once the
source file exists. -/
def Config.mkExt (cfg : Config) (ext : String) (f : NameFmt) (m : String)
    (incl : List String) : Extension :=
  ⟨f.fmt m, cfg.link_args, cfg.compile_args, cfg.library_dirs, cfg.libraries,
   [f.srcPath m ext], incl⟩

/-- `Config.make_extension` (setup.py lines 122-135): raise `OSError(source)`
when the source file is missing, otherwise build the `Extension`.  `fs`
models `os.path.exists`, `ext` is `SOURCE_EXT`. -/
def Config.make_extension (cfg : Config) (fs : String → Bool) (ext : String)
    (f : NameFmt) (m : String) (incl : List String) : Except String Extension :=
  if fs (f.srcPath m ext) then Except.ok (cfg.mkExt ext f m incl)
  else Except.error (f.srcPath m ext)

/-- `main_file` (setup.py lines 289-290). -/
def main_file (cfg : Config) (fs : String → Bool) (ext : String) (m : String) :
    Except String Extension :=
  cfg.make_extension fs ext mainFmt m []

/-- The diagnostic printed when a capability is skipped (lines 298-299). -/
def skipMsg (m : String) : String :=
  "Skipping the " ++ m ++ " extension because it " ++
    "is not supported by your GSSAPI implementation..."

/-- State mutated during module assembly: the `ENUM_EXTS` global and the
diagnostics printed so far. -/
structure BuildState where
  enum_exts : List Extension
  diags : List String
deriving DecidableEq

/-- `extension_file` (setup.py lines 296-312), with the `ENUM_EXTS` global
and printing threaded through `BuildState`.  The `try/except OSError: pass`
around the companion append becomes the `match` producing `st'`; an
`OSError` from the final `make_extension` propagates as `Except.error`. -/
def extension_file (cfg : Config) (fs : String → Bool) (ext : String)
    (m canary : String) (st : BuildState) :
    Except String (Option Extension × BuildState) :=
  if cfg.enable_support_detect && !hasSymbol cfg.gssapi_lib canary then
    Except.ok (none, ⟨st.enum_exts, st.diags ++ [skipMsg m]⟩)
  else
    let st' : BuildState :=
      match cfg.make_extension fs ext enumFmt m ["gssapi/raw/"] with
      | Except.ok e => ⟨st.enum_exts ++ [e], st.diags⟩
      | Except.error _ => st
    match cfg.make_extension fs ext extFmt m [] with
    | Except.ok prim => Except.ok (some prim, st')
    | Except.error s => Except.error s

/-- Left-to-right evaluation of a list of fallible computations, exactly as
Python evaluates the elements of a list literal or of an `extend` argument:
the first raised `OSError` aborts everything. -/
def mapE {α β : Type} (f : α → Except String β) :
    List α → Except String (List β)
  | [] => Except.ok []
  | x :: xs =>
    match f x with
    | Except.error e => Except.error e
    | Except.ok y =>
      match mapE f xs with
      | Except.error e => Except.error e
      | Except.ok ys => Except.ok (y :: ys)

/-- `os.environ.get('GSSAPI_MECHS', 'krb5').split(',')` (line 322). -/
def mechNames (mechsEnv : Option String) : List String :=
  pySplitComma (mechsEnv.getD "krb5")

/-- `gssapi_modules` (setup.py lines 315-328): filter out `None` entries,
extend with one mechanism extension per configured name, then extend with
`ENUM_EXTS`. -/
def gssapi_modules (cfg : Config) (fs : String → Bool) (ext : String)
    (mechsEnv : Option String) (enum_exts : List Extension)
    (lst : List (Option Extension)) : Except String (List Extension) :=
  match mapE (fun mech => cfg.make_extension fs ext mechFmt mech [])
      (mechNames mechsEnv) with
  | Except.error e => Except.error e
  | Except.ok mechs => Except.ok (lst.filterMap id ++ mechs ++ enum_exts)

/-- Left-to-right evaluation of the `extension_file(...)` entries of the
list literal at setup.py lines 380-397, threading the state. -/
def evalOptionals (cfg : Config) (fs : String → Bool) (ext : String) :
    List (String × String) → BuildState →
    Except String (List (Option Extension) × BuildState)
  | [], st => Except.ok ([], st)
  | p :: rest, st =>
    match extension_file cfg fs ext p.1 p.2 st with
    | Except.error e => Except.error e
    | Except.ok (o, st') =>
      match evalOptionals cfg fs ext rest st' with
      | Except.error e => Except.error e
      | Except.ok (os, st'') => Except.ok (o :: os, st'')

/-- The whole `ext_modules=gssapi_modules([...])` computation (setup.py lines
369-398): the `main_file` entries of the list literal evaluate first, then
the `extension_file` entries in order, then `gssapi_modules` runs on the
assembled list.  Returns the produced extension list together with the
diagnostics printed. -/
def setupExtModules (cfg : Config) (fs : String → Bool) (ext : String)
    (coreMods : List String) (optMods : List (String × String))
    (mechsEnv : Option String) : Except String (List Extension × List String) :=
  match mapE (main_file cfg fs ext) coreMods with
  | Except.error e => Except.error e
  | Except.ok cores =>
    match evalOptionals cfg fs ext optMods ⟨[], []⟩ with
    | Except.error e => Except.error e
    | Except.ok (opts, st) =>
      match gssapi_modules cfg fs ext mechsEnv st.enum_exts
          (cores.map some ++ opts) with
      | Except.error e => Except.error e
      | Except.ok units => Except.ok (units, st.diags)

/-- The core module names at setup.py lines 370-379. -/
def coreCatalogue : List String :=
  ["misc", "exceptions", "creds", "names", "sec_contexts", "types",
   "message", "oids", "cython_converters", "chan_bindings"]

/-- The optional-capability modules with their gating symbols, lines 380-397. -/
def optionalCatalogue : List (String × String) :=
  [("s4u", "gss_acquire_cred_impersonate_name"),
   ("cred_store", "gss_store_cred_into"),
   ("rfc5587", "gss_indicate_mechs_by_attrs"),
   ("rfc5588", "gss_store_cred"),
   ("rfc5801", "gss_inquire_saslname_for_mech"),
   ("cred_imp_exp", "gss_import_cred"),
   ("dce", "gss_wrap_iov"),
   ("iov_mic", "gss_get_mic_iov"),
   ("ggf", "gss_inquire_sec_context_by_oid"),
   ("set_cred_opt", "gss_set_cred_option"),
   ("rfc6680", "gss_display_name_ext"),
   ("rfc6680_comp_oid", "GSS_C_NT_COMPOSITE_EXPORT"),
   ("password", "gss_acquire_cred_with_password"),
   ("password_add", "gss_add_cred_with_password")]

/-- The guard of `extension_file` negated: true when the module survives. -/
def surviving (cfg : Config) (p : String × String) : Bool :=
  !(cfg.enable_support_detect && !hasSymbol cfg.gssapi_lib p.2)

/-- The core group of the produced list, in catalogue order. -/
def coreUnits (cfg : Config) (ext : String) (coreMods : List String) :
    List Extension :=
  coreMods.map (fun m => cfg.mkExt ext mainFmt m [])

/-- The surviving optional-capability group, in catalogue order. -/
def optUnits (cfg : Config) (ext : String)
    (optMods : List (String × String)) : List Extension :=
  (optMods.filter (surviving cfg)).map (fun p => cfg.mkExt ext extFmt p.1 [])

/-- The mechanism group, in configured order. -/
def mechUnits (cfg : Config) (ext : String) (mechsEnv : Option String) :
    List Extension :=
  (mechNames mechsEnv).map (fun n => cfg.mkExt ext mechFmt n [])

/-- The companion enum-extension group: surviving modules whose companion
source file exists, in catalogue order. -/
def enumUnits (cfg : Config) (fs : String → Bool) (ext : String)
    (optMods : List (String × String)) : List Extension :=
  (optMods.filter
    (fun p => surviving cfg p && fs (enumFmt.srcPath p.1 ext))).map
    (fun p => cfg.mkExt ext enumFmt p.1 ["gssapi/raw/"])

/-- The diagnostics printed, one per skipped capability, in catalogue order. -/
def skipDiags (cfg : Config) (optMods : List (String × String)) :
    List String :=
  (optMods.filter (fun p => !surviving cfg p)).map (fun p => skipMsg p.1)

/-- The ordering asserted by the specification, for comparison with the
produced one: all core units first, then all mechanism units, then the
surviving optional-capability and companion units, each group in catalogue
order. -/
def specOrderedUnits (cfg : Config) (fs : String → Bool) (ext : String)
    (coreMods : List String) (optMods : List (String × String))
    (mechsEnv : Option String) : List Extension :=
  coreUnits cfg ext coreMods ++ mechUnits cfg ext mechsEnv ++
    optUnits cfg ext optMods ++ enumUnits cfg fs ext optMods

/-- A configuration with capability detection disabled (`gssapi_lib = None`,
setup.py lines 88-89). -/
def cfgDisabled : Config := ⟨[], [], [], [], false, none⟩

/-- A configuration with detection enabled whose loaded library exposes no
symbol at all. -/
def cfgNoSyms : Config := ⟨[], [], [], [], true, some (fun _ => false)⟩

/-- A file system on which every path exists. -/
def fsAll : String → Bool := fun _ => true

/-!
## Theorems
-/

/-- A token cannot start with both `-L` and `-l`: the second characters differ. -/
theorem startsWith_L_l_exclusive (a : String) :
    ¬(pyStartsWith a "-L" = true ∧ pyStartsWith a "-l" = true) := by
  rintro ⟨hL, hl⟩
  unfold pyStartsWith at hL hl
  have hLdata : ("-L" : String).data = ['-', 'L'] := rfl
  have hldata : ("-l" : String).data = ['-', 'l'] := rfl
  rw [hLdata] at hL
  rw [hldata] at hl
  match h : a.data with
  | [] => rw [h] at hL; simp [List.isPrefixOf] at hL
  | [c] => rw [h] at hL; simp [List.isPrefixOf] at hL
  | c :: c2 :: cs =>
    rw [h] at hL hl
    simp [List.isPrefixOf] at hL hl
    exact absurd (hl.2.trans hL.2.symm) (by decide)

/-- Unfolding the `foldl` of the partition loop over an arbitrary start state. -/
theorem foldl_partStep (args : List String) (st : LinkPartition) :
    args.foldl partStep st =
      ⟨st.library_dirs ++
         (args.filter (fun a => pyStartsWith a "-L")).map (fun a => pyDrop a 2),
       st.libraries ++
         (args.filter
           (fun a => !pyStartsWith a "-L" && pyStartsWith a "-l")).map
           (fun a => pyDrop a 2),
       st.link_args ++
         args.filter (fun a => !pyStartsWith a "-L" && !pyStartsWith a "-l")⟩ := by
  induction args generalizing st with
  | nil => simp
  | cons a rest ih =>
    by_cases hL : pyStartsWith a "-L" = true
    · simp [ih, partStep, hL, List.filter_cons]
    · by_cases hl : pyStartsWith a "-l" = true
      · simp [ih, partStep, hL, hl, List.filter_cons]
      · simp [ih, partStep, hL, hl, List.filter_cons]

/-- The `elif` guard for `-l` can drop its `not startswith('-L')` conjunct. -/
theorem filter_l_simplify (args : List String) :
    args.filter (fun a => !pyStartsWith a "-L" && pyStartsWith a "-l") =
      args.filter (fun a => pyStartsWith a "-l") := by
  apply List.filter_congr
  intro a _
  by_cases hl : pyStartsWith a "-l" = true
  · have hL : pyStartsWith a "-L" = false := by
      by_contra hc
      exact startsWith_L_l_exclusive a ⟨eq_true_of_ne_false fun hf => hc hf, hl⟩
    simp [hl, hL]
  · simp [Bool.eq_false_iff.mpr hl]

/-- C1: construction of the build configuration partitions raw linker tokens
exclusively by prefix: `-L` tokens contribute their remainder to
`library_dirs`, `-l` tokens their remainder to `libraries`, every other token
goes unchanged to `link_args`, each preserving first-seen order; in
particular `["-L/a", "-lfoo", "-Wl,-rpath,/b"]` gives
`library_dirs = ["/a"]`, `libraries = ["foo"]`,
`link_args = ["-Wl,-rpath,/b"]`. -/
theorem C1_link_token_partition (args : List String) :
    partitionLinkArgs args =
      ⟨(args.filter (fun a => pyStartsWith a "-L")).map (fun a => pyDrop a 2),
       (args.filter (fun a => pyStartsWith a "-l")).map (fun a => pyDrop a 2),
       args.filter (fun a => !pyStartsWith a "-L" && !pyStartsWith a "-l")⟩ ∧
    partitionLinkArgs ["-L/a", "-lfoo", "-Wl,-rpath,/b"] =
      ⟨["/a"], ["foo"], ["-Wl,-rpath,/b"]⟩ := by
  constructor
  · unfold partitionLinkArgs
    rw [foldl_partStep, filter_l_simplify]
    simp
  · rfl


/-- When every element passes the guard, `mapE` over a guard-shaped function
succeeds with the mapped results. -/
theorem mapE_ite_all_true {α β : Type} (p : α → Bool) (g : α → β)
    (e : α → String) (l : List α) (h : ∀ a ∈ l, p a = true) :
    mapE (fun a => if p a then Except.ok (g a) else Except.error (e a)) l =
      Except.ok (l.map g) := by
  induction l with
  | nil => rfl
  | cons x xs ih =>
    simp only [mapE, h x (by simp), if_true, List.map_cons]
    rw [ih (fun a ha => h a (by simp [ha]))]

/-- Conversely, success of `mapE` over a guard-shaped function forces every
guard to pass and fixes the result. -/
theorem mapE_ite_ok_inv {α β : Type} (p : α → Bool) (g : α → β)
    (e : α → String) (l : List α) : ∀ ys : List β,
    mapE (fun a => if p a then Except.ok (g a) else Except.error (e a)) l =
      Except.ok ys →
    (∀ a ∈ l, p a = true) ∧ ys = l.map g := by
  induction l with
  | nil =>
    intro ys h
    simp only [mapE, Except.ok.injEq] at h
    simp [h.symm]
  | cons x xs ih =>
    intro ys h
    simp only [mapE] at h
    cases hx : p x with
    | false => rw [hx] at h; simp at h
    | true =>
      rw [hx] at h
      simp only [if_true] at h
      cases hm : mapE
          (fun a => if p a then Except.ok (g a) else Except.error (e a)) xs with
      | error s => rw [hm] at h; exact absurd h (by simp)
      | ok ys' =>
        rw [hm] at h
        simp only [Except.ok.injEq] at h
        obtain ⟨hall, hys⟩ := ih ys' hm
        refine ⟨?_, ?_⟩
        · intro a ha
          rcases List.mem_cons.mp ha with rfl | ha'
          · exact hx
          · exact hall a ha'
        · rw [← h, hys, List.map_cons]

/-- When some element fails the guard, `mapE` over a guard-shaped function
raises. -/
theorem mapE_ite_error {α β : Type} (p : α → Bool) (g : α → β)
    (e : α → String) (l : List α) (a : α) (ha : a ∈ l) (hpa : p a = false) :
    ∃ s, mapE (fun a => if p a then Except.ok (g a) else Except.error (e a)) l =
      Except.error s := by
  induction l with
  | nil => cases ha
  | cons x xs ih =>
    rcases List.mem_cons.mp ha with rfl | ha'
    · exact ⟨e a, by simp [mapE, hpa]⟩
    · cases hx : p x with
      | false => exact ⟨e x, by simp [mapE, hx]⟩
      | true =>
        obtain ⟨s, hs⟩ := ih ha'
        exact ⟨s, by simp [mapE, hx, hs]⟩

/-- Collapsing the `None` filter of `gssapi_modules` over a list built from a
survival guard. -/
theorem filterMap_guard {α β : Type} (q : α → Bool) (g : α → β) (l : List α) :
    (l.map (fun a => if q a then some (g a) else none)).filterMap id =
      (l.filter q).map g := by
  induction l with
  | nil => rfl
  | cons x xs ih =>
    cases hq : q x <;> simp [hq, ih, List.filter_cons]

/-- `filterMap id` over mapped `some`s recovers the list. -/
theorem filterMap_map_some {α : Type} (l : List α) :
    (l.map some).filterMap id = l := by
  induction l with
  | nil => rfl
  | cons x xs ih => simp [ih]


/-- A non-surviving module makes `extension_file` print the skip diagnostic
and return `None`, touching nothing else. -/
theorem extension_file_skip (cfg : Config) (fs : String → Bool)
    (ext m canary : String) (st : BuildState)
    (h : surviving cfg (m, canary) = false) :
    extension_file cfg fs ext m canary st =
      Except.ok (none, ⟨st.enum_exts, st.diags ++ [skipMsg m]⟩) := by
  unfold extension_file
  have hg : (cfg.enable_support_detect && !hasSymbol cfg.gssapi_lib canary)
      = true := by
    unfold surviving at h
    rw [Bool.not_eq_false'] at h
    exact h
  simp [hg]

/-- A surviving module whose primary source exists: `extension_file` returns
the primary extension and appends the companion iff its source exists. -/
theorem extension_file_ok (cfg : Config) (fs : String → Bool)
    (ext m canary : String) (st : BuildState)
    (h : surviving cfg (m, canary) = true)
    (hp : fs (extFmt.srcPath m ext) = true) :
    extension_file cfg fs ext m canary st =
      Except.ok (some (cfg.mkExt ext extFmt m []),
        if fs (enumFmt.srcPath m ext) then
          ⟨st.enum_exts ++ [cfg.mkExt ext enumFmt m ["gssapi/raw/"]], st.diags⟩
        else st) := by
  unfold extension_file
  have hg : (cfg.enable_support_detect && !hasSymbol cfg.gssapi_lib canary)
      = false := by
    unfold surviving at h
    rw [Bool.not_eq_true'] at h
    exact h
  cases he : fs (enumFmt.srcPath m ext) <;>
    simp [hg, Config.make_extension, he, hp]

/-- A surviving module whose primary source is missing aborts with the
`OSError` carrying the source path. -/
theorem extension_file_error (cfg : Config) (fs : String → Bool)
    (ext m canary : String) (st : BuildState)
    (h : surviving cfg (m, canary) = true)
    (hp : fs (extFmt.srcPath m ext) = false) :
    extension_file cfg fs ext m canary st =
      Except.error (extFmt.srcPath m ext) := by
  unfold extension_file
  have hg : (cfg.enable_support_detect && !hasSymbol cfg.gssapi_lib canary)
      = false := by
    unfold surviving at h
    rw [Bool.not_eq_true'] at h
    exact h
  cases he : fs (enumFmt.srcPath m ext) <;>
    simp [hg, Config.make_extension, he, hp]

/-- Running the `extension_file` entries succeeds when every surviving
module's primary source exists, with fully determined results. -/
theorem evalOptionals_ok (cfg : Config) (fs : String → Bool) (ext : String)
    (l : List (String × String)) : ∀ st : BuildState,
    (∀ p ∈ l, surviving cfg p = true → fs (extFmt.srcPath p.1 ext) = true) →
    evalOptionals cfg fs ext l st = Except.ok
      (l.map (fun p => if surviving cfg p
          then some (cfg.mkExt ext extFmt p.1 []) else none),
       ⟨st.enum_exts ++ enumUnits cfg fs ext l,
        st.diags ++ skipDiags cfg l⟩) := by
  induction l with
  | nil =>
    intro st h
    simp [evalOptionals, enumUnits, skipDiags]
  | cons p rest ih =>
    intro st h
    obtain ⟨m, canary⟩ := p
    cases hs : surviving cfg (m, canary) with
    | false =>
      rw [evalOptionals, extension_file_skip cfg fs ext m canary st hs]
      dsimp only
      rw [ih _ (fun q hq => h q (by simp [hq]))]
      dsimp only
      simp [enumUnits, skipDiags, List.filter_cons, hs]
    | true =>
      have hp : fs (extFmt.srcPath m ext) = true := h (m, canary) (by simp) hs
      rw [evalOptionals, extension_file_ok cfg fs ext m canary st hs hp]
      cases he : fs (enumFmt.srcPath m ext) with
      | false =>
        simp only [he, Bool.false_eq_true, if_false]
        rw [ih _ (fun q hq => h q (by simp [hq]))]
        dsimp only
        simp [enumUnits, skipDiags, List.filter_cons, hs, he]
      | true =>
        simp only [he, if_true]
        rw [ih _ (fun q hq => h q (by simp [hq]))]
        dsimp only
        simp [enumUnits, skipDiags, List.filter_cons, hs, he, List.append_assoc]

/-- Running the `extension_file` entries aborts when some surviving module's
primary source is missing. -/
theorem evalOptionals_error (cfg : Config) (fs : String → Bool) (ext : String)
    (l : List (String × String)) : ∀ st : BuildState,
    (¬ ∀ p ∈ l, surviving cfg p = true → fs (extFmt.srcPath p.1 ext) = true) →
    ∃ e, evalOptionals cfg fs ext l st = Except.error e := by
  induction l with
  | nil =>
    intro st h
    exact absurd (by simp) h
  | cons p rest ih =>
    intro st h
    obtain ⟨m, canary⟩ := p
    by_cases hs : surviving cfg (m, canary) = true
    · by_cases hp : fs (extFmt.srcPath m ext) = true
      · have hrest : ¬ ∀ q ∈ rest, surviving cfg q = true →
            fs (extFmt.srcPath q.1 ext) = true := by
          intro hq
          refine h ?_
          intro q hq'
          rcases List.mem_cons.mp hq' with rfl | hq''
          · intro _; exact hp
          · exact hq q hq''
        obtain ⟨e, he⟩ :=
          ih (if fs (enumFmt.srcPath m ext) then
            ⟨st.enum_exts ++ [cfg.mkExt ext enumFmt m ["gssapi/raw/"]], st.diags⟩
          else st) hrest
        refine ⟨e, ?_⟩
        rw [evalOptionals, extension_file_ok cfg fs ext m canary st hs hp]
        dsimp only
        rw [he]
      · refine ⟨extFmt.srcPath m ext, ?_⟩
        rw [evalOptionals,
          extension_file_error cfg fs ext m canary st hs
            (Bool.eq_false_iff.mpr hp)]
    · have hrest : ¬ ∀ q ∈ rest, surviving cfg q = true →
          fs (extFmt.srcPath q.1 ext) = true := by
        intro hq
        refine h ?_
        intro q hq'
        rcases List.mem_cons.mp hq' with rfl | hq''
        · intro hc; exact absurd hc hs
        · exact hq q hq''
      obtain ⟨e, he⟩ := ih ⟨st.enum_exts, st.diags ++ [skipMsg m]⟩ hrest
      refine ⟨e, ?_⟩
      rw [evalOptionals,
        extension_file_skip cfg fs ext m canary st (Bool.eq_false_iff.mpr hs)]
      dsimp only
      rw [he]

/-- `gssapi_modules` succeeds when every mechanism source exists, producing
filtered entries, then mechanisms, then the enum extensions. -/
theorem gssapi_modules_ok (cfg : Config) (fs : String → Bool) (ext : String)
    (mechsEnv : Option String) (enums : List Extension)
    (lst : List (Option Extension))
    (h : ∀ n ∈ mechNames mechsEnv, fs (mechFmt.srcPath n ext) = true) :
    gssapi_modules cfg fs ext mechsEnv enums lst =
      Except.ok (lst.filterMap id ++ mechUnits cfg ext mechsEnv ++ enums) := by
  unfold gssapi_modules
  simp only [Config.make_extension]
  rw [mapE_ite_all_true (fun n => fs (mechFmt.srcPath n ext))
    (fun n => cfg.mkExt ext mechFmt n []) (fun n => mechFmt.srcPath n ext)
    (mechNames mechsEnv) h]
  rfl

/-- `gssapi_modules` aborts when some mechanism source is missing. -/
theorem gssapi_modules_error (cfg : Config) (fs : String → Bool) (ext : String)
    (mechsEnv : Option String) (enums : List Extension)
    (lst : List (Option Extension)) (n : String)
    (hn : n ∈ mechNames mechsEnv) (hmiss : fs (mechFmt.srcPath n ext) = false) :
    ∃ e, gssapi_modules cfg fs ext mechsEnv enums lst = Except.error e := by
  obtain ⟨s, hs⟩ := mapE_ite_error (fun n => fs (mechFmt.srcPath n ext))
    (fun n => cfg.mkExt ext mechFmt n []) (fun n => mechFmt.srcPath n ext)
    (mechNames mechsEnv) n hn hmiss
  refine ⟨s, ?_⟩
  unfold gssapi_modules
  simp only [Config.make_extension]
  rw [hs]

/-- Evaluating the `main_file` entries succeeds iff every core source exists. -/
theorem mapE_main_file_ok (cfg : Config) (fs : String → Bool) (ext : String)
    (coreMods : List String)
    (h : ∀ m ∈ coreMods, fs (mainFmt.srcPath m ext) = true) :
    mapE (main_file cfg fs ext) coreMods =
      Except.ok (coreUnits cfg ext coreMods) := by
  unfold coreUnits
  have heta : mapE (main_file cfg fs ext) coreMods =
      mapE (fun m => if fs (mainFmt.srcPath m ext) then
          Except.ok (cfg.mkExt ext mainFmt m [])
        else Except.error (mainFmt.srcPath m ext)) coreMods := rfl
  rw [heta]
  exact mapE_ite_all_true (fun m => fs (mainFmt.srcPath m ext))
    (fun m => cfg.mkExt ext mainFmt m []) (fun m => mainFmt.srcPath m ext)
    coreMods h

/-- The full module assembly, when every needed source file exists:
the list is the filtered core and optional entries in call-site order,
then the mechanisms, then the companion enum extensions, and the
diagnostics name precisely the skipped capabilities. -/
theorem setupExtModules_ok (cfg : Config) (fs : String → Bool) (ext : String)
    (coreMods : List String) (optMods : List (String × String))
    (mechsEnv : Option String)
    (hcore : ∀ m ∈ coreMods, fs (mainFmt.srcPath m ext) = true)
    (hopt : ∀ p ∈ optMods, surviving cfg p = true →
      fs (extFmt.srcPath p.1 ext) = true)
    (hmech : ∀ n ∈ mechNames mechsEnv, fs (mechFmt.srcPath n ext) = true) :
    setupExtModules cfg fs ext coreMods optMods mechsEnv =
      Except.ok (coreUnits cfg ext coreMods ++ optUnits cfg ext optMods ++
          mechUnits cfg ext mechsEnv ++ enumUnits cfg fs ext optMods,
        skipDiags cfg optMods) := by
  unfold setupExtModules
  rw [mapE_main_file_ok cfg fs ext coreMods hcore]
  dsimp only
  rw [evalOptionals_ok cfg fs ext optMods ⟨[], []⟩ hopt]
  dsimp only
  rw [gssapi_modules_ok cfg fs ext mechsEnv _ _ hmech]
  dsimp only
  rw [List.filterMap_append, filterMap_map_some,
    filterMap_guard (surviving cfg) (fun p => cfg.mkExt ext extFmt p.1 [])]
  rfl

/-- A missing core source aborts the whole assembly. -/
theorem setupExtModules_error_core (cfg : Config) (fs : String → Bool)
    (ext : String) (coreMods : List String) (optMods : List (String × String))
    (mechsEnv : Option String) (m : String) (hm : m ∈ coreMods)
    (hmiss : fs (mainFmt.srcPath m ext) = false) :
    ∃ e, setupExtModules cfg fs ext coreMods optMods mechsEnv =
      Except.error e := by
  obtain ⟨s, hs⟩ := mapE_ite_error (fun m => fs (mainFmt.srcPath m ext))
    (fun m => cfg.mkExt ext mainFmt m []) (fun m => mainFmt.srcPath m ext)
    coreMods m hm hmiss
  refine ⟨s, ?_⟩
  unfold setupExtModules
  have heta : mapE (main_file cfg fs ext) coreMods =
      mapE (fun m => if fs (mainFmt.srcPath m ext) then
          Except.ok (cfg.mkExt ext mainFmt m [])
        else Except.error (mainFmt.srcPath m ext)) coreMods := rfl
  rw [heta, hs]

/-- A missing surviving-optional primary source aborts the whole assembly
(provided the cores got past evaluation). -/
theorem setupExtModules_error_opt (cfg : Config) (fs : String → Bool)
    (ext : String) (coreMods : List String) (optMods : List (String × String))
    (mechsEnv : Option String)
    (hcore : ∀ m ∈ coreMods, fs (mainFmt.srcPath m ext) = true)
    (hopt : ¬ ∀ p ∈ optMods, surviving cfg p = true →
      fs (extFmt.srcPath p.1 ext) = true) :
    ∃ e, setupExtModules cfg fs ext coreMods optMods mechsEnv =
      Except.error e := by
  obtain ⟨e, he⟩ := evalOptionals_error cfg fs ext optMods ⟨[], []⟩ hopt
  refine ⟨e, ?_⟩
  unfold setupExtModules
  rw [mapE_main_file_ok cfg fs ext coreMods hcore]
  dsimp only
  rw [he]

/-- A missing mechanism source aborts the whole assembly (provided the cores
and optionals got past evaluation). -/
theorem setupExtModules_error_mech (cfg : Config) (fs : String → Bool)
    (ext : String) (coreMods : List String) (optMods : List (String × String))
    (mechsEnv : Option String)
    (hcore : ∀ m ∈ coreMods, fs (mainFmt.srcPath m ext) = true)
    (hopt : ∀ p ∈ optMods, surviving cfg p = true →
      fs (extFmt.srcPath p.1 ext) = true)
    (n : String) (hn : n ∈ mechNames mechsEnv)
    (hmiss : fs (mechFmt.srcPath n ext) = false) :
    ∃ e, setupExtModules cfg fs ext coreMods optMods mechsEnv =
      Except.error e := by
  obtain ⟨e, he⟩ := gssapi_modules_error cfg fs ext mechsEnv
    ([] ++ enumUnits cfg fs ext optMods)
    ((coreUnits cfg ext coreMods).map some ++
      optMods.map (fun p => if surviving cfg p
        then some (cfg.mkExt ext extFmt p.1 []) else none)) n hn hmiss
  refine ⟨e, ?_⟩
  unfold setupExtModules
  rw [mapE_main_file_ok cfg fs ext coreMods hcore]
  dsimp only
  rw [evalOptionals_ok cfg fs ext optMods ⟨[], []⟩ hopt]
  dsimp only
  rw [he]

/-- Inversion: a successful assembly forces every needed source to exist and
fully determines the produced list and diagnostics. -/
theorem setupExtModules_ok_inv (cfg : Config) (fs : String → Bool)
    (ext : String) (coreMods : List String) (optMods : List (String × String))
    (mechsEnv : Option String) (units : List Extension) (diags : List String)
    (h : setupExtModules cfg fs ext coreMods optMods mechsEnv =
      Except.ok (units, diags)) :
    (∀ m ∈ coreMods, fs (mainFmt.srcPath m ext) = true) ∧
    (∀ p ∈ optMods, surviving cfg p = true →
      fs (extFmt.srcPath p.1 ext) = true) ∧
    (∀ n ∈ mechNames mechsEnv, fs (mechFmt.srcPath n ext) = true) ∧
    units = coreUnits cfg ext coreMods ++ optUnits cfg ext optMods ++
      mechUnits cfg ext mechsEnv ++ enumUnits cfg fs ext optMods ∧
    diags = skipDiags cfg optMods := by
  by_cases hcore : ∀ m ∈ coreMods, fs (mainFmt.srcPath m ext) = true
  · by_cases hopt : ∀ p ∈ optMods, surviving cfg p = true →
        fs (extFmt.srcPath p.1 ext) = true
    · by_cases hmech : ∀ n ∈ mechNames mechsEnv,
          fs (mechFmt.srcPath n ext) = true
      · rw [setupExtModules_ok cfg fs ext coreMods optMods mechsEnv
          hcore hopt hmech] at h
        simp only [Except.ok.injEq, Prod.mk.injEq] at h
        exact ⟨hcore, hopt, hmech, h.1.symm, h.2.symm⟩
      · push_neg at hmech
        obtain ⟨n, hn, hnm⟩ := hmech
        obtain ⟨e, he⟩ := setupExtModules_error_mech cfg fs ext coreMods
          optMods mechsEnv hcore hopt n hn (Bool.eq_false_iff.mpr hnm)
        rw [he] at h
        cases h
    · obtain ⟨e, he⟩ := setupExtModules_error_opt cfg fs ext coreMods
        optMods mechsEnv hcore hopt
      rw [he] at h
      cases h
  · push_neg at hcore
    obtain ⟨m, hm, hmm⟩ := hcore
    obtain ⟨e, he⟩ := setupExtModules_error_core cfg fs ext coreMods
      optMods mechsEnv m hm (Bool.eq_false_iff.mpr hmm)
    rw [he] at h
    cases h

/-- C2 counterexample: the claim includes the macOS version string exactly
"10.7" (parsed `[10, 7]`) among those selecting the Darwin variant, but
Python compares `[10, 7] >= [10, 7, 0]` as False (a strict prefix is
smaller), so a non-Windows Darwin host reporting "10.7" selects the default
variant, not the Darwin one. -/
theorem C2_counterexample :
    selectConfig "posix" "darwin" [10, 7] = PlatformVariant.posixDefault ∧
    PlatformVariant.posixDefault ≠ PlatformVariant.darwin := by
  constructor
  · rfl
  · decide

/-- C2 (amended): exactly one variant is selected, mutually exclusively and
exhaustively: the Windows identifier selects Windows; otherwise Darwin with
parsed version list `>= [10, 7, 0]` under Python list comparison (so the
two-component version `[10, 7]`, i.e. the string "10.7", does not qualify)
selects Darwin; otherwise the msys identifier selects the emulation variant;
otherwise the default. -/
theorem C2_variant_selection (osn spl : String) (ver : List Nat) :
    (selectConfig osn spl ver = PlatformVariant.windows ↔ osn = "nt") ∧
    (selectConfig osn spl ver = PlatformVariant.darwin ↔
      osn ≠ "nt" ∧ spl = "darwin" ∧ pyListGe ver [10, 7, 0] = true) ∧
    (selectConfig osn spl ver = PlatformVariant.msys ↔
      osn ≠ "nt" ∧ ¬(spl = "darwin" ∧ pyListGe ver [10, 7, 0] = true) ∧
        spl = "msys") ∧
    (selectConfig osn spl ver = PlatformVariant.posixDefault ↔
      osn ≠ "nt" ∧ ¬(spl = "darwin" ∧ pyListGe ver [10, 7, 0] = true) ∧
        spl ≠ "msys") := by
  unfold selectConfig
  split_ifs with h1 h2 h3 <;> simp_all

/-- C4: the sentinel marker file forces the Fallback (C) source format even
when Cython is available; without the sentinel the decision follows tooling
availability alone: Primary (Cython) exactly when the tool can be acquired,
Fallback otherwise. -/
theorem C4_sentinel_forces_fallback :
    (∀ cy, selectSourceFormat true cy = SourceFormat.fallback) ∧
    (∀ cy, selectSourceFormat false cy =
      if cy then SourceFormat.primary else SourceFormat.fallback) := by
  constructor <;> intro cy <;> cases cy <;> rfl

/-- C9 counterexample: the claim says discovery prepends the library's
directory to the process search path, but the code appends it
(`os.environ['PATH'] += os.pathsep + dirname`): with `PATH=/usr/bin` the
result is `/usr/bin:/mingw64/bin`, not the prepended order. -/
theorem C9_counterexample :
    msysGssapiLibPath 64 (fun s => s == "/mingw64/bin/libgss-3.dll")
        ":" "/usr/bin" =
      (some "/mingw64/bin/libgss-3.dll", "/usr/bin:/mingw64/bin") ∧
    ("/usr/bin:/mingw64/bin" : String) ≠ msysLibDir 64 ++ ":" ++ "/usr/bin" := by
  constructor
  · rfl
  · decide

/-- C9 (amended): in the POSIX-emulation variant without an install-root
environment variable, discovery probes the numbered system directory; when
the shared library exists there, its directory is appended (not prepended)
to the process search path and the library path is returned; otherwise the
result is absent and the search path is unchanged. -/
theorem C9_msys_discovery (arch : Nat) (fs : String → Bool)
    (pathsep path : String) :
    (fs (msysMainLib arch) = true →
      msysGssapiLibPath arch fs pathsep path =
        (some (msysMainLib arch), path ++ pathsep ++ msysLibDir arch)) ∧
    (fs (msysMainLib arch) = false →
      msysGssapiLibPath arch fs pathsep path = (none, path)) := by
  constructor <;> intro h <;> simp [msysGssapiLibPath, h]

/-- C9 witness: both branches at concrete inputs. -/
theorem C9_msys_discovery_witness :
    msysGssapiLibPath 64 (fun s => s == "/mingw64/bin/libgss-3.dll")
        ":" "/usr/bin" =
      (some (msysMainLib 64), "/usr/bin" ++ ":" ++ msysLibDir 64) ∧
    msysGssapiLibPath 64 (fun _ => false) ":" "/usr/bin" =
      (none, "/usr/bin") :=
  ⟨(C9_msys_discovery 64 (fun s => s == "/mingw64/bin/libgss-3.dll")
      ":" "/usr/bin").1 rfl,
   (C9_msys_discovery 64 (fun _ => false) ":" "/usr/bin").2 rfl⟩

/-- C10: capability detection is enabled iff the environment variable is
unset or its value, lowercased, equals exactly "true"; the deviant values
"1", "yes" and "True " (trailing blank) all disable it; and when disabled
the probe handle constructed is `None`. -/
theorem C10_detect_gate (senv menv vlib : Option String)
    (load : String → (String → Bool)) :
    (parseSupportDetect senv = true ↔
      (senv = none ∨ ∃ v, senv = some v ∧ pyLower v = "true")) ∧
    (parseSupportDetect senv = false →
      initProbeHandle senv menv vlib load = Except.ok none) ∧
    parseSupportDetect (some "1") = false ∧
    parseSupportDetect (some "yes") = false ∧
    parseSupportDetect (some "True ") = false ∧
    parseSupportDetect (some "True") = true := by
  refine ⟨?_, ?_, rfl, rfl, rfl, rfl⟩
  · cases senv with
    | none => simp [parseSupportDetect, show pyLower "true" = "true" from rfl]
    | some v => simp [parseSupportDetect]
  · intro h
    simp [initProbeHandle, h]

/-- C10 witness: a disabling value yields an absent probe handle. -/
theorem C10_detect_gate_witness :
    initProbeHandle (some "1") none none (fun _ _ => true) = Except.ok none :=
  (C10_detect_gate (some "1") none none (fun _ _ => true)).2.1 rfl

/-- C3 counterexample: the claim orders the produced list as core units, then
mechanism units, then surviving optional/companion units; but the code puts
the surviving optional primaries before the mechanisms (they sit in the list
literal that `gssapi_modules` filters, mechanisms are appended afterwards),
as this run with one core, one surviving optional and the default mechanism
shows. -/
theorem C3_counterexample :
    setupExtModules cfgDisabled fsAll "c" ["misc"]
        [("s4u", "gss_acquire_cred_impersonate_name")] none =
      Except.ok ([cfgDisabled.mkExt "c" mainFmt "misc" [],
                  cfgDisabled.mkExt "c" extFmt "s4u" [],
                  cfgDisabled.mkExt "c" mechFmt "krb5" [],
                  cfgDisabled.mkExt "c" enumFmt "s4u" ["gssapi/raw/"]], []) ∧
    [cfgDisabled.mkExt "c" mainFmt "misc" [],
     cfgDisabled.mkExt "c" extFmt "s4u" [],
     cfgDisabled.mkExt "c" mechFmt "krb5" [],
     cfgDisabled.mkExt "c" enumFmt "s4u" ["gssapi/raw/"]] ≠
      specOrderedUnits cfgDisabled fsAll "c" ["misc"]
        [("s4u", "gss_acquire_cred_impersonate_name")] none := by
  constructor
  · rfl
  · decide

/-- C3 (amended): every successfully produced BuildUnit sequence is the
concatenation of the core units, then the surviving optional-capability
units, then the mechanism units, then the surviving companion units, each
group in catalogue order. -/
theorem C3_unit_ordering (cfg : Config) (fs : String → Bool) (ext : String)
    (coreMods : List String) (optMods : List (String × String))
    (mechsEnv : Option String) (units : List Extension) (diags : List String)
    (h : setupExtModules cfg fs ext coreMods optMods mechsEnv =
      Except.ok (units, diags)) :
    units = coreUnits cfg ext coreMods ++ optUnits cfg ext optMods ++
      mechUnits cfg ext mechsEnv ++ enumUnits cfg fs ext optMods :=
  (setupExtModules_ok_inv cfg fs ext coreMods optMods mechsEnv units diags
    h).2.2.2.1

/-- C3 witness: the ordering theorem at a concrete run. -/
theorem C3_unit_ordering_witness :
    [cfgDisabled.mkExt "c" mainFmt "misc" [],
     cfgDisabled.mkExt "c" extFmt "s4u" [],
     cfgDisabled.mkExt "c" mechFmt "krb5" [],
     cfgDisabled.mkExt "c" enumFmt "s4u" ["gssapi/raw/"]] =
      coreUnits cfgDisabled "c" ["misc"] ++
        optUnits cfgDisabled "c" [("s4u", "gss_acquire_cred_impersonate_name")] ++
        mechUnits cfgDisabled "c" none ++
        enumUnits cfgDisabled fsAll "c"
          [("s4u", "gss_acquire_cred_impersonate_name")] :=
  C3_unit_ordering cfgDisabled fsAll "c" ["misc"]
    [("s4u", "gss_acquire_cred_impersonate_name")] none
    [cfgDisabled.mkExt "c" mainFmt "misc" [],
     cfgDisabled.mkExt "c" extFmt "s4u" [],
     cfgDisabled.mkExt "c" mechFmt "krb5" [],
     cfgDisabled.mkExt "c" enumFmt "s4u" ["gssapi/raw/"]] [] rfl

/-- C5: with capability detection disabled (absent probe handle), every
optional-capability module of the catalogue is included in any successfully
produced BuildUnit list, regardless of any symbol-presence outcome. -/
theorem C5_disabled_includes_all (cfg : Config) (fs : String → Bool)
    (ext : String) (coreMods : List String) (optMods : List (String × String))
    (mechsEnv : Option String) (units : List Extension) (diags : List String)
    (m canary : String)
    (hdis : cfg.enable_support_detect = false)
    (h : setupExtModules cfg fs ext coreMods optMods mechsEnv =
      Except.ok (units, diags))
    (hmem : (m, canary) ∈ optMods) :
    cfg.mkExt ext extFmt m [] ∈ units := by
  obtain ⟨-, -, -, hunits, -⟩ :=
    setupExtModules_ok_inv cfg fs ext coreMods optMods mechsEnv units diags h
  subst hunits
  have hsurv : ∀ p ∈ optMods, surviving cfg p = true := by
    intro p _
    simp [surviving, hdis]
  have hin : cfg.mkExt ext extFmt m [] ∈ optUnits cfg ext optMods := by
    unfold optUnits
    rw [List.filter_eq_self.mpr hsurv]
    exact List.mem_map.mpr ⟨(m, canary), hmem, rfl⟩
  simp [List.mem_append, hin]

/-- C5 witness: with detection disabled the s4u optional unit is in the
produced list. -/
theorem C5_disabled_includes_all_witness :
    cfgDisabled.mkExt "c" extFmt "s4u" [] ∈
      [cfgDisabled.mkExt "c" mainFmt "misc" [],
       cfgDisabled.mkExt "c" extFmt "s4u" [],
       cfgDisabled.mkExt "c" mechFmt "krb5" [],
       cfgDisabled.mkExt "c" enumFmt "s4u" ["gssapi/raw/"]] :=
  C5_disabled_includes_all cfgDisabled fsAll "c" ["misc"]
    [("s4u", "gss_acquire_cred_impersonate_name")] none
    [cfgDisabled.mkExt "c" mainFmt "misc" [],
     cfgDisabled.mkExt "c" extFmt "s4u" [],
     cfgDisabled.mkExt "c" mechFmt "krb5" [],
     cfgDisabled.mkExt "c" enumFmt "s4u" ["gssapi/raw/"]] []
    "s4u" "gss_acquire_cred_impersonate_name" rfl rfl (by simp)

/-- C6: with detection enabled and the gating symbol absent, the optional
module and its companion are both excluded (the produced list equals the one
a catalogue without that entry yields), a diagnostic naming the skipped
capability is emitted, and every core module remains present. -/
theorem C6_gate_skips_module (cfg : Config) (fs : String → Bool) (ext : String)
    (coreMods : List String) (pre post : List (String × String))
    (mechsEnv : Option String) (m canary : String) (units : List Extension)
    (diags : List String)
    (hen : cfg.enable_support_detect = true)
    (hsym : hasSymbol cfg.gssapi_lib canary = false)
    (h : setupExtModules cfg fs ext coreMods (pre ++ [(m, canary)] ++ post)
      mechsEnv = Except.ok (units, diags)) :
    (∃ diags2, setupExtModules cfg fs ext coreMods (pre ++ post) mechsEnv =
      Except.ok (units, diags2)) ∧
    skipMsg m ∈ diags ∧
    (∀ c ∈ coreMods, cfg.mkExt ext mainFmt c [] ∈ units) := by
  have hsurv : surviving cfg (m, canary) = false := by
    simp [surviving, hen, hsym]
  obtain ⟨hcore, hopt, hmech, hunits, hdiags⟩ :=
    setupExtModules_ok_inv cfg fs ext coreMods (pre ++ [(m, canary)] ++ post)
      mechsEnv units diags h
  have hoptU : optUnits cfg ext (pre ++ [(m, canary)] ++ post) =
      optUnits cfg ext (pre ++ post) := by
    unfold optUnits
    simp [List.filter_append, hsurv]
  have henumU : enumUnits cfg fs ext (pre ++ [(m, canary)] ++ post) =
      enumUnits cfg fs ext (pre ++ post) := by
    unfold enumUnits
    simp [List.filter_append, hsurv]
  refine ⟨⟨skipDiags cfg (pre ++ post), ?_⟩, ?_, ?_⟩
  · rw [setupExtModules_ok cfg fs ext coreMods (pre ++ post) mechsEnv hcore
      (fun p hp => hopt p (by
        rcases List.mem_append.mp hp with h1 | h2
        · exact List.mem_append.mpr (Or.inl (List.mem_append.mpr (Or.inl h1)))
        · exact List.mem_append.mpr (Or.inr h2))) hmech]
    rw [hunits, hoptU, henumU]
  · rw [hdiags]
    unfold skipDiags
    simp [List.filter_append, hsurv]
  · intro c hc
    rw [hunits]
    refine List.mem_append.mpr (Or.inl ?_)
    refine List.mem_append.mpr (Or.inl ?_)
    refine List.mem_append.mpr (Or.inl ?_)
    exact List.mem_map.mpr ⟨c, hc, rfl⟩

/-- C6 witness: a concrete run where the only optional module's symbol is
missing. -/
theorem C6_gate_skips_module_witness :
    (∃ diags2, setupExtModules cfgNoSyms fsAll "c" ["misc"]
        ([] ++ []) none =
      Except.ok ([cfgNoSyms.mkExt "c" mainFmt "misc" [],
                  cfgNoSyms.mkExt "c" mechFmt "krb5" []], diags2)) ∧
    skipMsg "s4u" ∈ [skipMsg "s4u"] ∧
    (∀ c ∈ ["misc"], cfgNoSyms.mkExt "c" mainFmt c [] ∈
      [cfgNoSyms.mkExt "c" mainFmt "misc" [],
       cfgNoSyms.mkExt "c" mechFmt "krb5" []]) :=
  C6_gate_skips_module cfgNoSyms fsAll "c" ["misc"] [] []
    none "s4u" "gss_acquire_cred_impersonate_name"
    [cfgNoSyms.mkExt "c" mainFmt "misc" [],
     cfgNoSyms.mkExt "c" mechFmt "krb5" []]
    [skipMsg "s4u"] rfl rfl rfl

/-- C7: a missing core source file aborts the whole assembly with an error
(no partial list is produced), while a missing companion enum-extension
source is omitted silently: the primary extension is still returned and
neither the enum-extension list nor the diagnostics change. -/
theorem C7_failure_semantics (cfg : Config) (fs : String → Bool) (ext : String)
    (coreMods : List String) (optMods : List (String × String))
    (mechsEnv : Option String) (m mc canary : String) (st : BuildState) :
    (m ∈ coreMods → fs (mainFmt.srcPath m ext) = false →
      ∃ e, setupExtModules cfg fs ext coreMods optMods mechsEnv =
        Except.error e) ∧
    (surviving cfg (mc, canary) = true →
      fs (extFmt.srcPath mc ext) = true →
      fs (enumFmt.srcPath mc ext) = false →
      extension_file cfg fs ext mc canary st =
        Except.ok (some (cfg.mkExt ext extFmt mc []), st)) := by
  constructor
  · intro hm hmiss
    exact setupExtModules_error_core cfg fs ext coreMods optMods mechsEnv
      m hm hmiss
  · intro hsurv hp he
    rw [extension_file_ok cfg fs ext mc canary st hsurv hp]
    simp [he]

/-- C7 witness: a run with every file missing aborts; a run missing only the
companion source returns the primary silently. -/
theorem C7_failure_semantics_witness :
    (∃ e, setupExtModules cfgDisabled (fun _ => false) "c" ["misc"] [] none =
      Except.error e) ∧
    extension_file cfgDisabled
        (fun s => !(s == enumFmt.srcPath "s4u" "c")) "c" "s4u"
        "gss_acquire_cred_impersonate_name" ⟨[], []⟩ =
      Except.ok (some (cfgDisabled.mkExt "c" extFmt "s4u" []), ⟨[], []⟩) :=
  ⟨(C7_failure_semantics cfgDisabled (fun _ => false) "c" ["misc"] [] none
      "misc" "s4u" "gss_acquire_cred_impersonate_name" ⟨[], []⟩).1
    (by simp) rfl,
   (C7_failure_semantics cfgDisabled
      (fun s => !(s == enumFmt.srcPath "s4u" "c")) "c" ["misc"] [] none
      "misc" "s4u" "gss_acquire_cred_impersonate_name" ⟨[], []⟩).2
    rfl rfl rfl⟩

/-- C8: one mechanism unit per configured name, in list order, named by the
mechanism-name template, independent of the probe handle; "krb5,ntlm" gives
exactly the two units named accordingly, and the default is the single
mechanism krb5. -/
theorem C8_mechanism_units (cfg : Config) (fs : String → Bool) (ext : String)
    (mechsEnv : Option String) (enums : List Extension)
    (lst : List (Option Extension))
    (hmech : ∀ n ∈ mechNames mechsEnv, fs (mechFmt.srcPath n ext) = true) :
    gssapi_modules cfg fs ext mechsEnv enums lst =
      Except.ok (lst.filterMap id ++
        (mechNames mechsEnv).map (fun n => cfg.mkExt ext mechFmt n []) ++
        enums) ∧
    mechNames (some "krb5,ntlm") = ["krb5", "ntlm"] ∧
    mechNames none = ["krb5"] ∧
    (cfg.mkExt ext mechFmt "krb5" []).name = "gssapi.raw.mech_krb5" ∧
    (cfg.mkExt ext mechFmt "ntlm" []).name = "gssapi.raw.mech_ntlm" ∧
    (∀ (b : Bool) (lib : Option (String → Bool)),
      gssapi_modules ⟨cfg.library_dirs, cfg.libraries, cfg.link_args,
          cfg.compile_args, b, lib⟩ fs ext mechsEnv enums lst =
        gssapi_modules cfg fs ext mechsEnv enums lst) := by
  refine ⟨gssapi_modules_ok cfg fs ext mechsEnv enums lst hmech,
    rfl, rfl, rfl, rfl, ?_⟩
  intro b lib
  rfl

/-- C8 witness: the two-mechanism list at concrete inputs. -/
theorem C8_mechanism_units_witness :
    gssapi_modules cfgDisabled fsAll "c" (some "krb5,ntlm") [] [] =
      Except.ok (([] : List (Option Extension)).filterMap id ++
        (mechNames (some "krb5,ntlm")).map
          (fun n => cfgDisabled.mkExt "c" mechFmt n []) ++ []) :=
  (C8_mechanism_units cfgDisabled fsAll "c" (some "krb5,ntlm") [] []
    (fun _ _ => rfl)).1
